import Mathlib

/-!
Verification of the SuperClaude execution-planning core and its
confidence/reflexion scoring engines against the repository's
natural-language specification.

The `pm_agent` modules (`confidence.py`, `reflexion.py`) are embedded
directly from their sources.  The `superclaude.execution` package
(parallel executor, reflection engine, self-correction engine) is not
present under `src/`; only its unit tests are.  Those components are
modelled from the specification, as marked on each definition.
-/

namespace SuperClaude

namespace Parallel

/-- Modelled from the spec: `superclaude/execution/parallel.py` is absent from
`src/`; `TaskStatus` is the task lifecycle enum `{pending, running, completed,
failed}` of the spec's Task model (§3). -/
inductive TaskStatus
  | pending
  | running
  | completed
  | failed

/-- Modelled from the spec: `superclaude/execution/parallel.py` is absent from
`src/`; `Task` is the spec's Task data model (§3): identity, description,
zero-argument unit of work, dependency ids, mutable status, optional
result/error.  The work unit either returns a value or raises, embedded as
`Except`. -/
structure Task where
  id : String
  description : String
  execute : Unit → Except String String
  depends_on : List String
  status : TaskStatus := .pending
  result : Option String := none
  error : Option String := none

/-- Modelled from the spec: `superclaude/execution/parallel.py` is absent from
`src/`; a task is eligible when every dependency id is in the satisfied set. -/
def Task.can_execute (t : Task) (completed : List String) : Bool :=
  t.depends_on.all (fun d => completed.contains d)

/-- Modelled from the spec: `superclaude/execution/parallel.py` is absent from
`src/`; `ParallelGroup` is an ordered batch of mutually independent tasks
(§3). -/
structure ParallelGroup where
  group_id : Nat
  tasks : List Task
  dependencies : List String

/-- Modelled from the spec: `superclaude/execution/parallel.py` is absent from
`src/`; `ExecutionPlan` is the ordered sequence of groups plus derived
metrics (§3). -/
structure ExecutionPlan where
  groups : List ParallelGroup
  total_tasks : Nat
  sequential_time_estimate : ℚ
  parallel_time_estimate : ℚ
  speedup : ℚ

/-- Modelled from the spec: nominal per-task cost used by the plan's
cost estimation (§4.1), one unit per task. -/
def TASK_TIME_ESTIMATE : ℚ := 1

/-- Modelled from the spec: `superclaude/execution/parallel.py` is absent from
`src/`; iterative Kahn-style topological leveling (§4.1).  Repeatedly take
every not-yet-assigned task whose dependencies are all satisfied as the next
group; if none is eligible while tasks remain, the remaining tasks contain a
cycle and planning fails with the circular-dependency error.  The fuel
argument bounds the number of rounds; `plan` passes the task count, which is
an upper bound on the rounds actually needed because every round assigns at
least one task. -/
def planLoop : Nat → List Task → List String → Except String (List (List Task))
  | _, [], _ => .ok []
  | 0, _ :: _, _ => .error "Circular dependency detected"
  | n + 1, t :: ts, satisfied =>
    let remaining := t :: ts
    let ready := remaining.filter (fun u => u.can_execute satisfied)
    if ready.isEmpty then
      .error "Circular dependency detected"
    else
      let rest := remaining.filter (fun u => !(u.can_execute satisfied))
      match planLoop n rest (satisfied ++ ready.map (·.id)) with
      | .ok gs => .ok (ready :: gs)
      | .error e => .error e

/-- Modelled from the spec: `superclaude/execution/parallel.py` is absent from
`src/`; the executor's bounded worker pool, default 10 workers (§4.2). -/
structure ParallelExecutor where
  max_workers : Nat := 10

/-- Modelled from the spec: `ParallelExecutor.plan` (§4.1) wraps the
topological leveling into an `ExecutionPlan` with group numbering and the
cost estimates (sequential = one unit per task, parallel = one unit per
group, speedup = sequential/parallel). -/
def ParallelExecutor.plan (_ex : ParallelExecutor) (tasks : List Task) :
    Except String ExecutionPlan :=
  (planLoop tasks.length tasks []).map (fun gss =>
    let seq : ℚ := tasks.length * TASK_TIME_ESTIMATE
    let par : ℚ := gss.length * TASK_TIME_ESTIMATE
    { groups := (gss.enum).map (fun p => ⟨p.1, p.2, []⟩)
      total_tasks := tasks.length
      sequential_time_estimate := seq
      parallel_time_estimate := par
      speedup := if par > 0 then seq / par else 1 })

/-- Modelled from the spec: the observable outcome of one task's isolated
invocation (§4.2) — a successful work unit contributes its return value, an
unhandled failure is caught and contributes an absent/null entry. -/
def taskOutcome (t : Task) : Option String :=
  match t.execute () with
  | .ok v => some v
  | .error _ => none

/-- Modelled from the spec: `superclaude/execution/parallel.py` is absent from
`src/`; `ParallelExecutor.execute` (§4.2) processes groups in plan order and
returns the mapping from task id to result value (or absence on failure).
Each task's failure is isolated, so the mapping is exactly the per-task
outcomes. -/
def ParallelExecutor.execute (_ex : ParallelExecutor) (p : ExecutionPlan) :
    List (String × Option String) :=
  ((p.groups.map (·.tasks)).flatten).map (fun t => (t.id, taskOutcome t))

/-- Modelled from the spec: `superclaude/execution/parallel.py` is absent from
`src/`; `should_parallelize` returns whether the item count reaches the
threshold (default 3). -/
def should_parallelize {α : Type} (items : List α) (threshold : Nat := 3) : Bool :=
  decide (threshold ≤ items.length)

/-- A cycle witness for a task list: a nonempty set of ids, each naming a
task of the list, such that every task of the list named by the set has a
dependency inside the set.  A dependency cycle yields such a witness (the
ids on the cycle), and for the named tasks progress is impossible (§4.1). -/
def CycleWitness (tasks : List Task) (S : List String) : Prop :=
  S ≠ [] ∧ (∀ s ∈ S, ∃ t ∈ tasks, t.id = s) ∧
    (∀ t ∈ tasks, t.id ∈ S → ∃ d ∈ t.depends_on, d ∈ S)

instance (tasks : List Task) (S : List String) : Decidable (CycleWitness tasks S) := by
  unfold CycleWitness
  infer_instance

/-- The task list contains a dependency cycle: some subset of the id list is
a cycle witness.  Restricting witnesses to sublists of the id list keeps the
predicate decidable and, for dependency-closed task lists, loses no
generality. -/
def HasCycle (tasks : List Task) : Prop :=
  ∃ S ∈ (tasks.map (·.id)).sublists, CycleWitness tasks S

instance (tasks : List Task) : Decidable (HasCycle tasks) := by
  unfold HasCycle
  infer_instance

end Parallel

namespace Reflection

/-- Modelled from the spec: `superclaude/execution/reflection.py` is absent
from `src/`; `ReflectionResult` is one sub-assessment's stage name, score in
[0,1], evidence strings and concern strings (§4.3). -/
structure ReflectionResult where
  stage : String
  score : ℚ
  evidence : List String
  concerns : List String

/-- Modelled from the spec: weight of the requirement-clarity sub-score;
the spec's representative split is clarity 0.35 / mistake-check 0.35 /
context 0.30, weights summing to 1.0 (§4.3). -/
def WEIGHT_CLARITY : ℚ := 35 / 100

/-- Modelled from the spec: weight of the mistake-check sub-score (§4.3). -/
def WEIGHT_MISTAKES : ℚ := 35 / 100

/-- Modelled from the spec: weight of the context-readiness sub-score
(§4.3). -/
def WEIGHT_CONTEXT : ℚ := 30 / 100

/-- Modelled from the spec: the fixed confidence threshold gating execution,
default 0.70 (§3, §4.3). -/
def CONFIDENCE_THRESHOLD : ℚ := 70 / 100

/-- Modelled from the spec: `ConfidenceScore` carries the three named
sub-scores, the aggregate weighted confidence, the should-proceed gate, and
blocker/recommendation strings (§3). -/
structure ConfidenceScore where
  requirement_clarity : ReflectionResult
  mistake_check : ReflectionResult
  context_ready : ReflectionResult
  confidence : ℚ
  should_proceed : Bool
  blockers : List String
  recommendations : List String

/-- Modelled from the spec: aggregate confidence = weighted sum of the three
sub-scores (§4.3). -/
def aggregateConfidence (clarity mistakes context : ℚ) : ℚ :=
  WEIGHT_CLARITY * clarity + WEIGHT_MISTAKES * mistakes + WEIGHT_CONTEXT * context

/-- Modelled from the spec: `ReflectionEngine.reflect` assembles the
`ConfidenceScore` from the three sub-assessments — aggregate confidence is
the weighted sum and `should_proceed` is aggregate ≥ threshold (§4.3). -/
def mkConfidenceScore (clarity mistakes context : ReflectionResult)
    (blockers recommendations : List String) : ConfidenceScore :=
  let confidence := aggregateConfidence clarity.score mistakes.score context.score
  { requirement_clarity := clarity
    mistake_check := mistakes
    context_ready := context
    confidence := confidence
    should_proceed := decide (CONFIDENCE_THRESHOLD ≤ confidence)
    blockers := blockers
    recommendations := recommendations }

end Reflection

namespace SelfCorrection

/-- Modelled from the spec: `superclaude/execution/self_correction.py` is
absent from `src/`; `RootCause` is the category tag, description, evidence,
generated prevention rule and suggested validation tests (§3). -/
structure RootCause where
  category : String
  description : String
  evidence : List String
  prevention_rule : String
  validation_tests : List String

/-- Modelled from the spec: `FailureEntry` is the persisted failure record
with a content-derived identity stable across recurrences, and a recurrence
counter starting at 0 (§3). -/
structure FailureEntry where
  id : String
  timestamp : String
  task : String
  failure_type : String
  error_message : String
  root_cause : RootCause
  fixed : Bool
  fix_description : Option String := none
  recurrence_count : Nat := 0

/-- Modelled from the spec: the mistake-memory JSON document with `version`,
a `mistakes` list and a `prevention_rules` list (§6). -/
structure ReflexionMemory where
  version : String
  mistakes : List FailureEntry
  prevention_rules : List String

/-- Modelled from the spec: the empty skeleton the store is initialized with
when absent (§4.4). -/
def emptyMemory : ReflexionMemory :=
  { version := "1.0", mistakes := [], prevention_rules := [] }

/-- Modelled from the spec: a task/operation result record whose `status`
field drives failure detection (§4.4). -/
structure ExecutionResult where
  status : String
  error : String := ""

/-- Modelled from the spec: `SelfCorrectionEngine.detect_failure` — a result
is a failure iff its status is in the fixed failure vocabulary
("failed", "error") (§4.4). -/
def detect_failure (result : ExecutionResult) : Bool :=
  result.status == "failed" || result.status == "error"

/-- Modelled from the spec: the stable failure signature derived from the
task description and the error text, not purely random (§4.4). -/
def failureSignature (task : String) (errorMessage : String) : String :=
  task ++ " | " ++ errorMessage

/-- Modelled from the spec: `SelfCorrectionEngine.learn_and_prevent` —
computes the failure signature; on a signature match increments that entry's
recurrence counter in place rather than appending a duplicate, on no match
appends a new `FailureEntry`; also appends the prevention rule to the
accumulated list if not already present (§4.4). -/
def learn_and_prevent (mem : ReflexionMemory) (timestamp task : String)
    (failure : ExecutionResult) (root_cause : RootCause) : ReflexionMemory :=
  let sig := failureSignature task failure.error
  let mistakes :=
    if mem.mistakes.any (fun e => e.id == sig) then
      mem.mistakes.map (fun e =>
        if e.id == sig then { e with recurrence_count := e.recurrence_count + 1 }
        else e)
    else
      mem.mistakes ++
        [{ id := sig
           timestamp := timestamp
           task := task
           failure_type := root_cause.category
           error_message := failure.error
           root_cause := root_cause
           fixed := false }]
  let rules :=
    if mem.prevention_rules.contains root_cause.prevention_rule then
      mem.prevention_rules
    else
      mem.prevention_rules ++ [root_cause.prevention_rule]
  { mem with mistakes := mistakes, prevention_rules := rules }

end SelfCorrection

namespace Confidence

/-- Outcomes of the five investigation-phase checks consulted by
`ConfidenceChecker.assess` (`src/src/superclaude/pm_agent/confidence.py`).
The private checks `_no_duplicates`, `_architecture_compliant`,
`_has_official_docs`, `_has_oss_reference` and `_root_cause_identified`
inspect the context dict and the filesystem; `assess` depends on them only
through their Boolean outcomes, captured by this record. -/
structure CheckOutcomes where
  no_duplicates : Bool
  architecture_compliant : Bool
  has_official_docs : Bool
  has_oss_reference : Bool
  root_cause_identified : Bool

/-- `ConfidenceChecker.assess` (`confidence.py` lines 43-101): starts from
score 0.0 and sequentially adds 0.25, 0.25, 0.2, 0.15, 0.15 for each check
that passes.  Python float constants are embedded as the equal rationals; in
the source's accumulation order every reachable partial sum is exactly
representable as an IEEE double, so the embedded values coincide with the
floats the code computes. -/
def assess (c : CheckOutcomes) : ℚ :=
  let score : ℚ := 0
  let score := if c.no_duplicates then score + 25 / 100 else score
  let score := if c.architecture_compliant then score + 25 / 100 else score
  let score := if c.has_official_docs then score + 2 / 10 else score
  let score := if c.has_oss_reference then score + 15 / 100 else score
  let score := if c.root_cause_identified then score + 15 / 100 else score
  score

/-- The claim's reading of `assess`: the sum, over the five checks, of the
check's fixed weight when it passes and 0 when it fails. -/
def passingWeightSum (c : CheckOutcomes) : ℚ :=
  (if c.no_duplicates then 25 / 100 else 0) +
  (if c.architecture_compliant then 25 / 100 else 0) +
  (if c.has_official_docs then 2 / 10 else 0) +
  (if c.has_oss_reference then 15 / 100 else 0) +
  (if c.root_cause_identified then 15 / 100 else 0)

end Confidence

namespace Reflexion

/-- Splits a character stream into maximal whitespace-free words, the
semantics of Python's `str.split()` with no argument: runs of whitespace
separate words and produce no empty fragments.  `acc` holds the characters
of the current word in reverse. -/
def wordsAux : List Char → List Char → List String
  | [], acc => if acc.isEmpty then [] else [String.mk acc.reverse]
  | c :: cs, acc =>
    if c.isWhitespace then
      if acc.isEmpty then wordsAux cs []
      else String.mk acc.reverse :: wordsAux cs []
    else wordsAux cs (c :: acc)

/-- The word set of an error signature as built by
`ReflexionPattern._calculate_similarity` (`reflexion.py` lines 250-252):
lowercase the signature (Python `str.lower()` maps each character), split on
whitespace (Python `str.split()`), and collect the words as a set. -/
def signatureWords (s : String) : Finset String :=
  (wordsAux (s.data.map Char.toLower) []).toFinset

/-- The fixed error-type vocabulary used for the similarity boost
(`reflexion.py` lines 263-273). -/
def ERROR_TYPES : Finset String :=
  {"assertionerror", "typeerror", "valueerror", "keyerror", "indexerror",
   "importerror", "filenotfounderror", "connectionerror", "zerodivisionerror"}

/-- `ReflexionPattern._calculate_similarity` (`reflexion.py` lines 235-278):
Jaccard similarity of the two word sets, plus a 0.2 boost when the common
words contain a known error type, capped at 1.0; empty word sets yield
0.0. -/
def calculate_similarity (sig1 sig2 : String) : ℚ :=
  let words1 := signatureWords sig1
  let words2 := signatureWords sig2
  if words1 = ∅ ∨ words2 = ∅ then 0
  else
    let intersection := (words1 ∩ words2).card
    let union := (words1 ∪ words2).card
    let jaccard : ℚ := if 0 < union then (intersection : ℚ) / union else 0
    let error_boost : ℚ :=
      if (words1 ∩ words2) ∩ ERROR_TYPES = ∅ then 0 else 2 / 10
    min 1 (jaccard + error_boost)

/-- The statistics record returned by `ReflexionPattern.get_statistics`
(`reflexion.py` lines 486-520). -/
structure Statistics where
  total_errors : Nat
  errors_with_solutions : Nat
  solution_reuse_rate : ℚ

/-- The loop of `get_statistics` (`reflexion.py` lines 503-514) over the
lines of `solutions_learned.jsonl`.  A line is `none` when `json.loads`
raises `JSONDecodeError` (the loop skips it) and `some b` when it parses,
where `b` records whether `record.get("solution")` is truthy.  Returns
(total, with_solutions). -/
def statsCounts : List (Option Bool) → Nat × Nat
  | [] => (0, 0)
  | none :: rest => statsCounts rest
  | some b :: rest =>
    let p := statsCounts rest
    (p.1 + 1, if b then p.2 + 1 else p.2)

/-- `ReflexionPattern.get_statistics` (`reflexion.py` lines 486-520): the
solutions file is `none` when it does not exist, otherwise the list of its
lines.  When the file is missing all statistics are zero; otherwise the
reuse rate is `with_solutions / total * 100`, guarded to 0 when no errors
were recorded. -/
def get_statistics (solutionsFile : Option (List (Option Bool))) : Statistics :=
  match solutionsFile with
  | none =>
    { total_errors := 0, errors_with_solutions := 0, solution_reuse_rate := 0 }
  | some lines =>
    let p := statsCounts lines
    { total_errors := p.1
      errors_with_solutions := p.2
      solution_reuse_rate := if 0 < p.1 then (p.2 : ℚ) / p.1 * 100 else 0 }

end Reflexion

end SuperClaude

namespace SuperClaude

open Parallel Reflection SelfCorrection Confidence Reflexion

/-- Auxiliary: the two statistics counters satisfy `with_solutions ≤ total`
for every line list. -/
lemma statsCounts_snd_le_fst (l : List (Option Bool)) :
    (Reflexion.statsCounts l).2 ≤ (Reflexion.statsCounts l).1 := by
  induction l with
  | nil => simp [Reflexion.statsCounts]
  | cons a rest ih =>
    match a with
    | none => simpa [Reflexion.statsCounts] using ih
    | some b =>
      cases b <;> simp [Reflexion.statsCounts] <;> omega

/-- C6: `SelfCorrectionEngine.detect_failure` returns true iff the result's
status field is in the fixed failure vocabulary ("failed", "error"); for
"success" and every other status it returns false. -/
theorem detect_failure_iff_status_in_vocabulary :
    (∀ r : SelfCorrection.ExecutionResult,
       SelfCorrection.detect_failure r = true ↔
         (r.status = "failed" ∨ r.status = "error"))
    ∧ SelfCorrection.detect_failure { status := "success" } = false := by
  constructor
  · intro r
    simp [SelfCorrection.detect_failure]
  · rfl

/-- C7: `should_parallelize` is true exactly when the list has at least the
threshold many items (default threshold 3); in particular it is false for
lists of fewer than three items and true for three or more under the
default. -/
theorem should_parallelize_iff_threshold :
    (∀ (α : Type) (items : List α) (t : Nat),
        Parallel.should_parallelize items t = true ↔ t ≤ items.length)
    ∧ (∀ (α : Type) (items : List α),
        Parallel.should_parallelize items = false ↔ items.length < 3)
    ∧ Parallel.should_parallelize ([] : List Nat) = false
    ∧ Parallel.should_parallelize [1] = false
    ∧ Parallel.should_parallelize [1, 2] = false
    ∧ Parallel.should_parallelize [1, 2, 3] = true
    ∧ Parallel.should_parallelize [1, 2, 3, 4, 5] = true := by
  refine ⟨?_, ?_, rfl, rfl, rfl, rfl, rfl⟩
  · intro α items t
    simp [Parallel.should_parallelize]
  · intro α items
    simp [Parallel.should_parallelize]

/-- C4: the three reflection weights sum to 1.0; the aggregate confidence of
a `ConfidenceScore` is the weighted sum of the three sub-scores and
`should_proceed` holds iff the aggregate reaches the 0.70 threshold; three
sub-scores of 1.0 yield aggregate 1.0 with `should_proceed` true, and three
sub-scores of 0.0 yield aggregate 0.0 with `should_proceed` false. -/
theorem reflection_confidence_aggregation_and_gate :
    Reflection.WEIGHT_CLARITY + Reflection.WEIGHT_MISTAKES + Reflection.WEIGHT_CONTEXT = 1
    ∧ (∀ (r1 r2 r3 : Reflection.ReflectionResult) (bl rec : List String),
        (Reflection.mkConfidenceScore r1 r2 r3 bl rec).confidence =
          Reflection.WEIGHT_CLARITY * r1.score + Reflection.WEIGHT_MISTAKES * r2.score +
            Reflection.WEIGHT_CONTEXT * r3.score
        ∧ ((Reflection.mkConfidenceScore r1 r2 r3 bl rec).should_proceed = true ↔
            Reflection.CONFIDENCE_THRESHOLD ≤
              (Reflection.mkConfidenceScore r1 r2 r3 bl rec).confidence))
    ∧ (Reflection.mkConfidenceScore ⟨"Requirement Clarity", 1, [], []⟩
         ⟨"Past Mistakes", 1, [], []⟩ ⟨"Context Readiness", 1, [], []⟩ [] []).confidence = 1
    ∧ (Reflection.mkConfidenceScore ⟨"Requirement Clarity", 1, [], []⟩
         ⟨"Past Mistakes", 1, [], []⟩ ⟨"Context Readiness", 1, [], []⟩ [] []).should_proceed = true
    ∧ (Reflection.mkConfidenceScore ⟨"Requirement Clarity", 0, [], []⟩
         ⟨"Past Mistakes", 0, [], []⟩ ⟨"Context Readiness", 0, [], []⟩ [] []).confidence = 0
    ∧ (Reflection.mkConfidenceScore ⟨"Requirement Clarity", 0, [], []⟩
         ⟨"Past Mistakes", 0, [], []⟩ ⟨"Context Readiness", 0, [], []⟩ [] []).should_proceed
        = false := by
  refine ⟨?_, ?_, ?_, ?_, ?_, ?_⟩
  · norm_num [Reflection.WEIGHT_CLARITY, Reflection.WEIGHT_MISTAKES, Reflection.WEIGHT_CONTEXT]
  · intro r1 r2 r3 bl rec
    refine ⟨rfl, ?_⟩
    simp [Reflection.mkConfidenceScore]
  · norm_num [Reflection.mkConfidenceScore, Reflection.aggregateConfidence,
      Reflection.WEIGHT_CLARITY, Reflection.WEIGHT_MISTAKES, Reflection.WEIGHT_CONTEXT]
  · norm_num [Reflection.mkConfidenceScore, Reflection.aggregateConfidence,
      Reflection.WEIGHT_CLARITY, Reflection.WEIGHT_MISTAKES, Reflection.WEIGHT_CONTEXT,
      Reflection.CONFIDENCE_THRESHOLD]
  · norm_num [Reflection.mkConfidenceScore, Reflection.aggregateConfidence,
      Reflection.WEIGHT_CLARITY, Reflection.WEIGHT_MISTAKES, Reflection.WEIGHT_CONTEXT]
  · norm_num [Reflection.mkConfidenceScore, Reflection.aggregateConfidence,
      Reflection.WEIGHT_CLARITY, Reflection.WEIGHT_MISTAKES, Reflection.WEIGHT_CONTEXT,
      Reflection.CONFIDENCE_THRESHOLD]

/-- C8: `ConfidenceChecker.assess` returns exactly the sum of the weights of
the passing checks (weights 0.25, 0.25, 0.20, 0.15, 0.15); the score always
lies in [0, 1] and equals 1.0 iff all five checks pass. -/
theorem assess_is_passing_weight_sum :
    ∀ c : Confidence.CheckOutcomes,
      Confidence.assess c = Confidence.passingWeightSum c
      ∧ 0 ≤ Confidence.assess c
      ∧ Confidence.assess c ≤ 1
      ∧ (Confidence.assess c = 1 ↔
          c.no_duplicates = true ∧ c.architecture_compliant = true ∧
          c.has_official_docs = true ∧ c.has_oss_reference = true ∧
          c.root_cause_identified = true) := by
  rintro ⟨b1, b2, b3, b4, b5⟩
  cases b1 <;> cases b2 <;> cases b3 <;> cases b4 <;> cases b5 <;>
    refine ⟨by norm_num [Confidence.assess, Confidence.passingWeightSum], ?_, ?_, ?_⟩ <;>
    norm_num [Confidence.assess]

/-- C10: `ReflexionPattern.get_statistics` degrades safely — a missing
solutions file yields all-zero statistics without raising; on every input
`errors_with_solutions ≤ total_errors`, and the reuse-rate division is
guarded so that `total_errors = 0` yields rate 0 rather than a division by
zero. -/
theorem get_statistics_degrades_safely :
    Reflexion.get_statistics none =
      { total_errors := 0, errors_with_solutions := 0, solution_reuse_rate := 0 }
    ∧ (∀ f, (Reflexion.get_statistics f).errors_with_solutions ≤
          (Reflexion.get_statistics f).total_errors)
    ∧ (∀ f, (Reflexion.get_statistics f).total_errors = 0 →
          (Reflexion.get_statistics f).solution_reuse_rate = 0) := by
  refine ⟨rfl, ?_, ?_⟩
  · intro f
    match f with
    | none => simp [Reflexion.get_statistics]
    | some lines =>
      simpa [Reflexion.get_statistics] using statsCounts_snd_le_fst lines
  · intro f h
    match f with
    | none => rfl
    | some lines =>
      simp only [Reflexion.get_statistics] at h ⊢
      simp [h]

/-- Witness for C10: on the concrete empty solutions file the hypothesis
`total_errors = 0` holds and the theorem yields reuse rate 0. -/
theorem get_statistics_degrades_safely_witness :
    (Reflexion.get_statistics (some [])).total_errors = 0
    ∧ (Reflexion.get_statistics (some [])).solution_reuse_rate = 0 :=
  ⟨rfl, get_statistics_degrades_safely.2.2 (some []) rfl⟩

/-- C5: recording the same failure signature (same task description and
error text) twice via `learn_and_prevent` leaves exactly one `FailureEntry`
for that signature, with its recurrence counter incremented to reflect the
second occurrence, rather than two duplicate entries; a call with an
unmatched signature appends a new entry. -/
theorem learn_and_prevent_recurrence :
    ∀ (mem : SelfCorrection.ReflexionMemory) (ts1 ts2 task : String)
      (failure : SelfCorrection.ExecutionResult) (cause : SelfCorrection.RootCause),
      (∀ e ∈ mem.mistakes, e.id ≠ SelfCorrection.failureSignature task failure.error) →
      ∃ e1 : SelfCorrection.FailureEntry,
        (SelfCorrection.learn_and_prevent mem ts1 task failure cause).mistakes
            = mem.mistakes ++ [e1]
        ∧ e1.id = SelfCorrection.failureSignature task failure.error
        ∧ e1.recurrence_count = 0
        ∧ ((SelfCorrection.learn_and_prevent
              (SelfCorrection.learn_and_prevent mem ts1 task failure cause)
              ts2 task failure cause).mistakes.filter
                (fun e => e.id == SelfCorrection.failureSignature task failure.error)).length
            = 1
        ∧ (∀ e ∈ (SelfCorrection.learn_and_prevent
              (SelfCorrection.learn_and_prevent mem ts1 task failure cause)
              ts2 task failure cause).mistakes,
              e.id = SelfCorrection.failureSignature task failure.error →
                e.recurrence_count = 1)
        ∧ (SelfCorrection.learn_and_prevent
              (SelfCorrection.learn_and_prevent mem ts1 task failure cause)
              ts2 task failure cause).mistakes.length
            = mem.mistakes.length + 1 := by
  intro mem ts1 ts2 task failure cause h
  have unfoldLemma : ∀ (m : SelfCorrection.ReflexionMemory) (ts : String),
      (SelfCorrection.learn_and_prevent m ts task failure cause).mistakes =
        if m.mistakes.any
            (fun e => e.id == SelfCorrection.failureSignature task failure.error) then
          m.mistakes.map (fun e =>
            if e.id == SelfCorrection.failureSignature task failure.error then
              { e with recurrence_count := e.recurrence_count + 1 }
            else e)
        else
          m.mistakes ++
            [{ id := SelfCorrection.failureSignature task failure.error
               timestamp := ts
               task := task
               failure_type := cause.category
               error_message := failure.error
               root_cause := cause
               fixed := false }] := fun _ _ => rfl
  set sig := SelfCorrection.failureSignature task failure.error with hsig
  have hany1 : mem.mistakes.any (fun e => e.id == sig) = false := by
    simp only [List.any_eq_false]
    intro e he
    simpa using h e he
  set e1 : SelfCorrection.FailureEntry :=
    { id := sig
      timestamp := ts1
      task := task
      failure_type := cause.category
      error_message := failure.error
      root_cause := cause
      fixed := false } with he1
  have hm1 : (SelfCorrection.learn_and_prevent mem ts1 task failure cause).mistakes
      = mem.mistakes ++ [e1] := by
    rw [unfoldLemma mem ts1, hany1]
    simp [he1]
  have hany2 : ((mem.mistakes ++ [e1]).any (fun e => e.id == sig)) = true := by
    simp [he1]
  have hbump : ((mem.mistakes ++ [e1]).map (fun e =>
      if e.id == sig then { e with recurrence_count := e.recurrence_count + 1 } else e))
      = mem.mistakes ++ [{ e1 with recurrence_count := 1 }] := by
    rw [List.map_append]
    congr 1
    · calc mem.mistakes.map (fun e =>
            if e.id == sig then { e with recurrence_count := e.recurrence_count + 1 } else e)
          = mem.mistakes.map id := by
            apply List.map_congr_left
            intro e he
            have : (e.id == sig) = false := by simpa using h e he
            simp [this]
        _ = mem.mistakes := List.map_id _
    · simp [he1]
  have hm2 : (SelfCorrection.learn_and_prevent
      (SelfCorrection.learn_and_prevent mem ts1 task failure cause)
      ts2 task failure cause).mistakes
      = mem.mistakes ++ [{ e1 with recurrence_count := 1 }] := by
    rw [unfoldLemma (SelfCorrection.learn_and_prevent mem ts1 task failure cause) ts2,
      hm1, hany2]
    simpa using hbump
  refine ⟨e1, hm1, rfl, rfl, ?_, ?_, ?_⟩
  · rw [hm2, List.filter_append]
    have hnil : mem.mistakes.filter (fun e => e.id == sig) = [] := by
      simp only [List.filter_eq_nil_iff]
      intro e he
      simpa using h e he
    rw [hnil]
    simp [he1]
  · intro e he hid
    rw [hm2] at he
    rcases List.mem_append.mp he with hmem | hnew
    · exact absurd hid (h e hmem)
    · rcases List.mem_singleton.mp hnew with rfl
      rfl
  · rw [hm2]
    simp

/-- Witness for C5: from the empty memory, recording the concrete failure
("Same task", "Invalid input") twice yields a single entry with recurrence
counter 1. -/
theorem learn_and_prevent_recurrence_witness :
    ∃ e1 : SelfCorrection.FailureEntry,
      (SelfCorrection.learn_and_prevent SelfCorrection.emptyMemory
          "2024-01-01" "Same task" { status := "failed", error := "Invalid input" }
          ⟨"validation", "Invalid", [], "Validate inputs", []⟩).mistakes
        = SelfCorrection.emptyMemory.mistakes ++ [e1]
      ∧ e1.id = SelfCorrection.failureSignature "Same task" "Invalid input"
      ∧ e1.recurrence_count = 0
      ∧ ((SelfCorrection.learn_and_prevent
            (SelfCorrection.learn_and_prevent SelfCorrection.emptyMemory
              "2024-01-01" "Same task" { status := "failed", error := "Invalid input" }
              ⟨"validation", "Invalid", [], "Validate inputs", []⟩)
            "2024-01-02" "Same task" { status := "failed", error := "Invalid input" }
            ⟨"validation", "Invalid", [], "Validate inputs", []⟩).mistakes.filter
              (fun e => e.id == SelfCorrection.failureSignature "Same task" "Invalid input")).length
          = 1
      ∧ (∀ e ∈ (SelfCorrection.learn_and_prevent
            (SelfCorrection.learn_and_prevent SelfCorrection.emptyMemory
              "2024-01-01" "Same task" { status := "failed", error := "Invalid input" }
              ⟨"validation", "Invalid", [], "Validate inputs", []⟩)
            "2024-01-02" "Same task" { status := "failed", error := "Invalid input" }
            ⟨"validation", "Invalid", [], "Validate inputs", []⟩).mistakes,
            e.id = SelfCorrection.failureSignature "Same task" "Invalid input" →
              e.recurrence_count = 1)
      ∧ (SelfCorrection.learn_and_prevent
            (SelfCorrection.learn_and_prevent SelfCorrection.emptyMemory
              "2024-01-01" "Same task" { status := "failed", error := "Invalid input" }
              ⟨"validation", "Invalid", [], "Validate inputs", []⟩)
            "2024-01-02" "Same task" { status := "failed", error := "Invalid input" }
            ⟨"validation", "Invalid", [], "Validate inputs", []⟩).mistakes.length
          = SelfCorrection.emptyMemory.mistakes.length + 1 :=
  learn_and_prevent_recurrence SelfCorrection.emptyMemory "2024-01-01" "2024-01-02"
    "Same task" { status := "failed", error := "Invalid input" }
    ⟨"validation", "Invalid", [], "Validate inputs", []⟩
    (by intro e he; cases he)

/-- C9: `_calculate_similarity` is commutative in its two signatures and its
value always lies in [0, 1]; a signature with an empty word set yields
similarity 0. -/
theorem calculate_similarity_comm_and_bounded :
    ∀ s1 s2 : String,
      Reflexion.calculate_similarity s1 s2 = Reflexion.calculate_similarity s2 s1
      ∧ 0 ≤ Reflexion.calculate_similarity s1 s2
      ∧ Reflexion.calculate_similarity s1 s2 ≤ 1
      ∧ (Reflexion.signatureWords s1 = ∅ → Reflexion.calculate_similarity s1 s2 = 0) := by
  intro s1 s2
  have key : ∀ u v : String,
      0 ≤ Reflexion.calculate_similarity u v ∧ Reflexion.calculate_similarity u v ≤ 1 := by
    intro u v
    simp only [Reflexion.calculate_similarity]
    by_cases hor : Reflexion.signatureWords u = ∅ ∨ Reflexion.signatureWords v = ∅
    · simp [hor]
    · rw [if_neg hor]
      constructor
      · apply le_min
        · norm_num
        · apply add_nonneg
          · split
            · positivity
            · exact le_refl 0
          · split <;> norm_num
      · exact min_le_left _ _
  have comm : Reflexion.calculate_similarity s1 s2 = Reflexion.calculate_similarity s2 s1 := by
    simp only [Reflexion.calculate_similarity]
    by_cases hor : Reflexion.signatureWords s1 = ∅ ∨ Reflexion.signatureWords s2 = ∅
    · have hor' : Reflexion.signatureWords s2 = ∅ ∨ Reflexion.signatureWords s1 = ∅ :=
        hor.symm
      rw [if_pos hor, if_pos hor']
    · have hor' : ¬(Reflexion.signatureWords s2 = ∅ ∨ Reflexion.signatureWords s1 = ∅) :=
        fun hc => hor hc.symm
      rw [if_neg hor, if_neg hor',
        Finset.inter_comm (Reflexion.signatureWords s2) (Reflexion.signatureWords s1),
        Finset.union_comm (Reflexion.signatureWords s2) (Reflexion.signatureWords s1)]
  have hempty : Reflexion.signatureWords s1 = ∅ →
      Reflexion.calculate_similarity s1 s2 = 0 := by
    intro h
    simp [Reflexion.calculate_similarity, h]
  exact ⟨comm, (key s1 s2).1, (key s1 s2).2, hempty⟩

/-- Witness for C9: the empty signature has an empty word set and the
theorem yields similarity 0 against a concrete second signature. -/
theorem calculate_similarity_comm_and_bounded_witness :
    Reflexion.signatureWords "" = ∅
    ∧ Reflexion.calculate_similarity "" "TypeError x" = 0 :=
  ⟨by decide, (calculate_similarity_comm_and_bounded "" "TypeError x").2.2.2 (by decide)⟩

/-- Auxiliary: in a task list with pairwise-distinct ids, looking up a
member task's id in the executor's result mapping finds that task's own
outcome. -/
lemma lookup_outcome_of_nodup :
    ∀ (l : List Parallel.Task), (l.map (·.id)).Nodup →
      ∀ t ∈ l, (l.map (fun u => (u.id, Parallel.taskOutcome u))).lookup t.id
        = some (Parallel.taskOutcome t) := by
  intro l
  induction l with
  | nil => intro _ t ht; cases ht
  | cons a rest ih =>
    intro hnodup t ht
    have hnodup' : (rest.map (·.id)).Nodup := (List.nodup_cons.mp hnodup).2
    have hhead : a.id ∉ rest.map (·.id) := (List.nodup_cons.mp hnodup).1
    rcases List.mem_cons.mp ht with rfl | hmem
    · simp [List.lookup]
    · have hne : (t.id == a.id) = false := by
        have htid : t.id ∈ rest.map (·.id) := List.mem_map_of_mem _ hmem
        have hneq : t.id ≠ a.id := fun heq => hhead (heq ▸ htid)
        simp [hneq]
      simp only [List.map_cons, List.lookup, hne]
      exact ih hnodup' t hmem

/-- C1: executor failure isolation — for any execution plan whose tasks have
distinct ids and whose groups contain a task whose work unit returns
"success" and a task whose work unit raises, `ParallelExecutor.execute`
returns a result mapping (it never raises) that contains "success" for the
succeeding task and an absent/None entry for the raising task, and every
other task of the plan — sibling or later — still contributes the entry its
own work unit determines. -/
theorem executor_failure_isolation :
    ∀ (ex : Parallel.ParallelExecutor) (p : Parallel.ExecutionPlan),
      (((p.groups.map (·.tasks)).flatten).map (·.id)).Nodup →
      ∀ g ∈ p.groups, ∀ okT ∈ g.tasks, ∀ badT ∈ g.tasks,
        okT.execute () = .ok "success" →
        ∀ e : String, badT.execute () = .error e →
          (ex.execute p).lookup okT.id = some (some "success")
          ∧ (ex.execute p).lookup badT.id = some none
          ∧ ∀ t ∈ (p.groups.map (·.tasks)).flatten,
              (ex.execute p).lookup t.id = some (Parallel.taskOutcome t) := by
  intro ex p hnodup g hg okT hok badT hbad hokex e hbadex
  have hall : ∀ t ∈ (p.groups.map (·.tasks)).flatten,
      (ex.execute p).lookup t.id = some (Parallel.taskOutcome t) := by
    intro t ht
    exact lookup_outcome_of_nodup _ hnodup t ht
  have hmemflat : ∀ u ∈ g.tasks, u ∈ (p.groups.map (·.tasks)).flatten := by
    intro u hu
    exact List.mem_flatten.mpr ⟨g.tasks, List.mem_map_of_mem _ hg, hu⟩
  refine ⟨?_, ?_, hall⟩
  · have := hall okT (hmemflat okT hok)
    rwa [show Parallel.taskOutcome okT = some "success" by
      simp [Parallel.taskOutcome, hokex]] at this
  · have := hall badT (hmemflat badT hbad)
    rwa [show Parallel.taskOutcome badT = none by
      simp [Parallel.taskOutcome, hbadex]] at this

/-- Witness for C1: a concrete one-group plan with a succeeding and a
raising task; the mapping holds "success" for the first and None for the
second. -/
theorem executor_failure_isolation_witness :
    ((Parallel.ParallelExecutor.mk 10).execute
        ⟨[⟨0, [⟨"t1", "Good task", fun _ => .ok "success", [], .pending, none, none⟩,
               ⟨"t2", "Bad task", fun _ => .error "Intentional failure", [],
                 .pending, none, none⟩], []⟩], 2, 2, 1, 2⟩).lookup "t1"
      = some (some "success")
    ∧ ((Parallel.ParallelExecutor.mk 10).execute
        ⟨[⟨0, [⟨"t1", "Good task", fun _ => .ok "success", [], .pending, none, none⟩,
               ⟨"t2", "Bad task", fun _ => .error "Intentional failure", [],
                 .pending, none, none⟩], []⟩], 2, 2, 1, 2⟩).lookup "t2"
      = some none := by
  have h := executor_failure_isolation (Parallel.ParallelExecutor.mk 10)
    ⟨[⟨0, [⟨"t1", "Good task", fun _ => .ok "success", [], .pending, none, none⟩,
           ⟨"t2", "Bad task", fun _ => .error "Intentional failure", [],
             .pending, none, none⟩], []⟩], 2, 2, 1, 2⟩
    (by decide)
    ⟨0, [⟨"t1", "Good task", fun _ => .ok "success", [], .pending, none, none⟩,
         ⟨"t2", "Bad task", fun _ => .error "Intentional failure", [],
           .pending, none, none⟩], []⟩
    (List.mem_singleton.mpr rfl)
    ⟨"t1", "Good task", fun _ => .ok "success", [], .pending, none, none⟩
    (List.mem_cons_self _ _)
    ⟨"t2", "Bad task", fun _ => .error "Intentional failure", [], .pending, none, none⟩
    (List.mem_cons_of_mem _ (List.mem_cons_self _ _))
    rfl "Intentional failure" rfl
  exact ⟨h.1, h.2.1⟩


/-- Auxiliary: if some element of `l` satisfies `p`, the elements failing
`p` are strictly fewer than `l`'s length. -/
lemma length_filter_not_lt {α : Type} (p : α → Bool) (l : List α)
    (h : l.filter p ≠ []) :
    (l.filter (fun a => !p a)).length < l.length := by
  have hperm := List.filter_append_perm p l
  have hlen : (l.filter p).length + (l.filter (fun a => !p a)).length = l.length := by
    simpa using hperm.length_eq
  have hpos : 0 < (l.filter p).length := List.length_pos.mpr h
  omega

/-- Auxiliary: a successful `planLoop` run partitions the remaining tasks —
the concatenation of the produced groups is a permutation of the input. -/
lemma planLoop_perm :
    ∀ (n : Nat) (remaining : List Parallel.Task) (satisfied : List String)
      (gs : List (List Parallel.Task)),
      Parallel.planLoop n remaining satisfied = .ok gs →
      gs.flatten.Perm remaining := by
  intro n
  induction n with
  | zero =>
    intro remaining satisfied gs h
    cases remaining with
    | nil =>
      simp only [Parallel.planLoop] at h
      cases h
      simp
    | cons t ts =>
      simp only [Parallel.planLoop] at h
      cases h
  | succ n ih =>
    intro remaining satisfied gs h
    cases remaining with
    | nil =>
      simp only [Parallel.planLoop] at h
      cases h
      simp
    | cons t ts =>
      simp only [Parallel.planLoop] at h
      by_cases hready :
          ((t :: ts).filter (fun u => u.can_execute satisfied)).isEmpty = true
      · rw [if_pos hready] at h
        cases h
      · rw [if_neg hready] at h
        cases hrec : Parallel.planLoop n
            ((t :: ts).filter (fun u => !(u.can_execute satisfied)))
            (satisfied ++
              ((t :: ts).filter (fun u => u.can_execute satisfied)).map (·.id)) with
        | error e =>
          rw [hrec] at h
          cases h
        | ok gs' =>
          rw [hrec] at h
          cases h
          have hp := ih _ _ _ hrec
          simp only [List.flatten_cons]
          exact (hp.append_left _).trans (List.filter_append_perm _ _)

/-- Auxiliary: in a successful `planLoop` run, every dependency of a task of
group `i` is either already satisfied at entry or provided by a strictly
earlier group. -/
lemma planLoop_deps_earlier :
    ∀ (n : Nat) (remaining : List Parallel.Task) (satisfied : List String)
      (gs : List (List Parallel.Task)),
      Parallel.planLoop n remaining satisfied = .ok gs →
      ∀ (i : Nat) (hi : i < gs.length), ∀ t ∈ gs.get ⟨i, hi⟩, ∀ d ∈ t.depends_on,
        d ∈ satisfied ∨ d ∈ ((gs.take i).flatten.map (·.id)) := by
  intro n
  induction n with
  | zero =>
    intro remaining satisfied gs h
    cases remaining with
    | nil =>
      simp only [Parallel.planLoop] at h
      cases h
      intro i hi
      simp at hi
    | cons t ts =>
      simp only [Parallel.planLoop] at h
      cases h
  | succ n ih =>
    intro remaining satisfied gs h
    cases remaining with
    | nil =>
      simp only [Parallel.planLoop] at h
      cases h
      intro i hi
      simp at hi
    | cons t ts =>
      simp only [Parallel.planLoop] at h
      by_cases hready :
          ((t :: ts).filter (fun u => u.can_execute satisfied)).isEmpty = true
      · rw [if_pos hready] at h
        cases h
      · rw [if_neg hready] at h
        cases hrec : Parallel.planLoop n
            ((t :: ts).filter (fun u => !(u.can_execute satisfied)))
            (satisfied ++
              ((t :: ts).filter (fun u => u.can_execute satisfied)).map (·.id)) with
        | error e =>
          rw [hrec] at h
          cases h
        | ok gs' =>
          rw [hrec] at h
          cases h
          intro i hi t' ht' d hd
          cases i with
          | zero =>
            left
            have ht'' : t' ∈ (t :: ts).filter (fun u => u.can_execute satisfied) := ht'
            have hcan := (List.mem_filter.mp ht'').2
            unfold Parallel.Task.can_execute at hcan
            rw [List.all_eq_true] at hcan
            simpa using hcan d hd
          | succ j =>
            have hj : j < gs'.length := by
              simpa using Nat.lt_of_succ_lt_succ hi
            have hIH := ih _ _ _ hrec j hj t' ht' d hd
            rcases hIH with hsat | hearlier
            · rcases List.mem_append.mp hsat with h1 | h2
              · exact Or.inl h1
              · right
                simp only [List.take_succ_cons, List.flatten_cons, List.map_append]
                exact List.mem_append.mpr (Or.inl h2)
            · right
              simp only [List.take_succ_cons, List.flatten_cons, List.map_append]
              exact List.mem_append.mpr (Or.inr hearlier)

/-- Auxiliary: when a cycle witness survives among the remaining tasks and
none of its ids is satisfied yet, `planLoop` necessarily fails with the
circular-dependency error. -/
lemma planLoop_cycle_error :
    ∀ (n : Nat) (remaining : List Parallel.Task) (satisfied : List String)
      (S : List String), S ≠ [] →
      (∀ s ∈ S, ∃ t ∈ remaining, t.id = s) →
      (∀ t ∈ remaining, t.id ∈ S → ∃ d ∈ t.depends_on, d ∈ S) →
      (∀ s ∈ S, s ∉ satisfied) →
      Parallel.planLoop n remaining satisfied = .error "Circular dependency detected" := by
  intro n
  induction n with
  | zero =>
    intro remaining satisfied S hS hrem hcyc hsat
    cases remaining with
    | nil =>
      obtain ⟨s, hs⟩ := List.exists_mem_of_ne_nil S hS
      obtain ⟨t, ht, _⟩ := hrem s hs
      cases ht
    | cons t ts =>
      simp only [Parallel.planLoop]
  | succ n ih =>
    intro remaining satisfied S hS hrem hcyc hsat
    cases remaining with
    | nil =>
      obtain ⟨s, hs⟩ := List.exists_mem_of_ne_nil S hS
      obtain ⟨t, ht, _⟩ := hrem s hs
      cases ht
    | cons t ts =>
      have hreadyS : ∀ u ∈ (t :: ts).filter (fun v => v.can_execute satisfied),
          u.id ∉ S := by
        intro u hu hid
        have hcanu := (List.mem_filter.mp hu).2
        have humem := (List.mem_filter.mp hu).1
        obtain ⟨d, hd, hdS⟩ := hcyc u humem hid
        unfold Parallel.Task.can_execute at hcanu
        rw [List.all_eq_true] at hcanu
        have hdsat : d ∈ satisfied := by simpa using hcanu d hd
        exact hsat d hdS hdsat
      simp only [Parallel.planLoop]
      by_cases hready :
          ((t :: ts).filter (fun v => v.can_execute satisfied)).isEmpty = true
      · rw [if_pos hready]
      · rw [if_neg hready]
        have hrem' : ∀ s ∈ S,
            ∃ u ∈ (t :: ts).filter (fun v => !(v.can_execute satisfied)), u.id = s := by
          intro s hs
          obtain ⟨u, hu, huid⟩ := hrem s hs
          by_cases hcan : u.can_execute satisfied = true
          · exact absurd (huid ▸ hs) (hreadyS u (List.mem_filter.mpr ⟨hu, hcan⟩))
          · refine ⟨u, List.mem_filter.mpr ⟨hu, ?_⟩, huid⟩
            simpa using hcan
        have hcyc' : ∀ u ∈ (t :: ts).filter (fun v => !(v.can_execute satisfied)),
            u.id ∈ S → ∃ d ∈ u.depends_on, d ∈ S := by
          intro u hu hid
          exact hcyc u (List.mem_filter.mp hu).1 hid
        have hsat' : ∀ s ∈ S, s ∉ satisfied ++
            ((t :: ts).filter (fun v => v.can_execute satisfied)).map (·.id) := by
          intro s hs hmem
          rcases List.mem_append.mp hmem with h1 | h2
          · exact hsat s hs h1
          · obtain ⟨u, hu, huid⟩ := List.mem_map.mp h2
            exact hreadyS u hu (huid ▸ hs)
        rw [ih _ _ S hS hrem' hcyc' hsat']

/-- Auxiliary: Kahn completeness — with fuel at least the number of
remaining tasks, pairwise-distinct ids, dependencies closed under the
satisfied set and the remaining ids, and no cycle witness among the
remaining tasks, `planLoop` succeeds. -/
lemma planLoop_complete :
    ∀ (n : Nat) (remaining : List Parallel.Task) (satisfied : List String),
      remaining.length ≤ n →
      (remaining.map (·.id)).Nodup →
      (∀ t ∈ remaining, ∀ d ∈ t.depends_on,
          d ∈ satisfied ∨ d ∈ remaining.map (·.id)) →
      (∀ S : List String, ¬Parallel.CycleWitness remaining S) →
      ∃ gs, Parallel.planLoop n remaining satisfied = .ok gs := by
  intro n
  induction n with
  | zero =>
    intro remaining satisfied hlen hnd hcl hnc
    cases remaining with
    | nil => exact ⟨[], rfl⟩
    | cons t ts => simp at hlen
  | succ n ih =>
    intro remaining satisfied hlen hnd hcl hnc
    cases remaining with
    | nil => exact ⟨[], rfl⟩
    | cons t ts =>
      have hready : ((t :: ts).filter (fun v => v.can_execute satisfied)) ≠ [] := by
        intro hnil
        apply hnc ((t :: ts).map (·.id))
        refine ⟨by simp, ?_, ?_⟩
        · intro s hs
          obtain ⟨u, hu, huid⟩ := List.mem_map.mp hs
          exact ⟨u, hu, huid⟩
        · intro u hu _
          have hnotready : ¬(u.can_execute satisfied = true) := by
            rw [List.filter_eq_nil_iff] at hnil
            exact hnil u hu
          unfold Parallel.Task.can_execute at hnotready
          rw [List.all_eq_true] at hnotready
          push_neg at hnotready
          obtain ⟨d, hd1, hd2⟩ := hnotready
          rcases hcl u hu d hd1 with h1 | h2
          · exact absurd h1 (by simpa using hd2)
          · exact ⟨d, hd1, h2⟩
      have hreadyBool :
          ¬(((t :: ts).filter (fun v => v.can_execute satisfied)).isEmpty = true) := by
        simpa [List.isEmpty_iff] using hready
      have hlenrest :
          ((t :: ts).filter (fun v => !(v.can_execute satisfied))).length
            < (t :: ts).length := by
        simpa using
          length_filter_not_lt (fun v => v.can_execute satisfied) (t :: ts) hready
      have hlen' : ((t :: ts).filter (fun v => !(v.can_execute satisfied))).length ≤ n := by
        have hlen'' : (t :: ts).length ≤ n + 1 := hlen
        omega
      have hsubrest :
          ((t :: ts).filter (fun v => !(v.can_execute satisfied))).Sublist (t :: ts) :=
        List.filter_sublist _
      have hnd' : (((t :: ts).filter (fun v => !(v.can_execute satisfied))).map
          (·.id)).Nodup := hnd.sublist (hsubrest.map _)
      have hcl' : ∀ u ∈ (t :: ts).filter (fun v => !(v.can_execute satisfied)),
          ∀ d ∈ u.depends_on,
            d ∈ (satisfied ++
              ((t :: ts).filter (fun v => v.can_execute satisfied)).map (·.id))
            ∨ d ∈ ((t :: ts).filter (fun v => !(v.can_execute satisfied))).map (·.id) := by
        intro u hu d hd
        have humem : u ∈ t :: ts := hsubrest.subset hu
        rcases hcl u humem d hd with h1 | h2
        · exact Or.inl (List.mem_append.mpr (Or.inl h1))
        · obtain ⟨v, hv, hvid⟩ := List.mem_map.mp h2
          by_cases hcan : v.can_execute satisfied = true
          · refine Or.inl (List.mem_append.mpr (Or.inr ?_))
            exact List.mem_map.mpr ⟨v, List.mem_filter.mpr ⟨hv, hcan⟩, hvid⟩
          · refine Or.inr ?_
            exact List.mem_map.mpr
              ⟨v, List.mem_filter.mpr ⟨hv, by simpa using hcan⟩, hvid⟩
      have hnc' : ∀ S : List String,
          ¬Parallel.CycleWitness
            ((t :: ts).filter (fun v => !(v.can_execute satisfied))) S := by
        rintro S ⟨hS, hrem', hcyc'⟩
        apply hnc S
        refine ⟨hS, ?_, ?_⟩
        · intro s hs
          obtain ⟨u, hu, huid⟩ := hrem' s hs
          exact ⟨u, hsubrest.subset hu, huid⟩
        · intro u hu hid
          obtain ⟨u', hu', hu'id⟩ := hrem' u.id hid
          have hequ : u = u' :=
            List.inj_on_of_nodup_map hnd hu (hsubrest.subset hu') hu'id.symm
          subst hequ
          exact hcyc' u hu' hid
      obtain ⟨gs', hgs'⟩ := ih ((t :: ts).filter (fun v => !(v.can_execute satisfied)))
        (satisfied ++ ((t :: ts).filter (fun v => v.can_execute satisfied)).map (·.id))
        hlen' hnd' hcl' hnc'
      refine ⟨(t :: ts).filter (fun v => v.can_execute satisfied) :: gs', ?_⟩
      simp only [Parallel.planLoop]
      rw [if_neg hreadyBool, hgs']

/-- Auxiliary: with pairwise-distinct ids across the flattened groups, an id
occurring in the groups before position `i` cannot also occur in group
`i`. -/
lemma disjoint_take_group {gs : List (List Parallel.Task)}
    (hnd : (gs.flatten.map (·.id)).Nodup) (i : Nat) (hi : i < gs.length)
    (d : String) (hd1 : d ∈ (gs.take i).flatten.map (·.id))
    (hd2 : d ∈ (gs.get ⟨i, hi⟩).map (·.id)) : False := by
  have hdrop : gs.drop i = gs.get ⟨i, hi⟩ :: gs.drop (i + 1) := by
    rw [List.get_eq_getElem]
    exact List.drop_eq_getElem_cons hi
  have h1 : gs.flatten.map (·.id) =
      (gs.take i).flatten.map (·.id) ++ (gs.drop i).flatten.map (·.id) := by
    rw [← List.map_append, ← List.flatten_append, List.take_append_drop]
  have h2 : (gs.drop i).flatten.map (·.id) =
      (gs.get ⟨i, hi⟩).map (·.id) ++ (gs.drop (i + 1)).flatten.map (·.id) := by
    rw [hdrop, List.flatten_cons, List.map_append]
  rw [h1, h2, List.nodup_append] at hnd
  exact hnd.2.2 hd1 (List.mem_append.mpr (Or.inl hd2))

/-- Auxiliary: a successful `ParallelExecutor.plan` call is a successful
`planLoop` run; the plan's groups carry exactly the produced task groups. -/
lemma plan_ok_groups {ex : Parallel.ParallelExecutor} {tasks : List Parallel.Task}
    {p : Parallel.ExecutionPlan} (h : ex.plan tasks = .ok p) :
    ∃ gss, Parallel.planLoop tasks.length tasks [] = .ok gss
      ∧ p.groups.map (·.tasks) = gss := by
  unfold Parallel.ParallelExecutor.plan at h
  cases hpl : Parallel.planLoop tasks.length tasks [] with
  | error e =>
    rw [hpl] at h
    cases h
  | ok gss =>
    rw [hpl] at h
    cases h
    refine ⟨gss, rfl, ?_⟩
    simp only [List.map_map]
    have hcomp : ((fun x => x.tasks) ∘ fun q : Nat × List Parallel.Task =>
        ({ group_id := q.1, tasks := q.2, dependencies := [] } : Parallel.ParallelGroup))
        = Prod.snd := by
      funext q
      rfl
    rw [hcomp]
    exact List.enum_map_snd gss

/-- C3: whenever the tasks contain a dependency cycle — witnessed by a
nonempty id set each of whose named tasks depends on another id of the set,
in particular the two-task mutual dependency — `ParallelExecutor.plan` fails
with the circular-dependency error; and a returned plan never silently drops
tasks: the groups of any successful plan are a permutation of the input. -/
theorem plan_circular_dependency_detection :
    (∀ (ex : Parallel.ParallelExecutor) (tasks : List Parallel.Task)
        (S : List String), Parallel.CycleWitness tasks S →
        ex.plan tasks = .error "Circular dependency detected")
    ∧ (Parallel.ParallelExecutor.mk 10).plan
        [⟨"t1", "Task 1", fun _ => .ok "r1", ["t2"], .pending, none, none⟩,
         ⟨"t2", "Task 2", fun _ => .ok "r2", ["t1"], .pending, none, none⟩]
        = .error "Circular dependency detected"
    ∧ (∀ (ex : Parallel.ParallelExecutor) (tasks : List Parallel.Task)
        (p : Parallel.ExecutionPlan),
        ex.plan tasks = .ok p → ((p.groups.map (·.tasks)).flatten).Perm tasks) := by
  refine ⟨?_, ?_, ?_⟩
  · rintro ex tasks S ⟨hS, hrem, hcyc⟩
    unfold Parallel.ParallelExecutor.plan
    rw [planLoop_cycle_error tasks.length tasks [] S hS hrem hcyc (by simp)]
    rfl
  · rfl
  · intro ex tasks p h
    obtain ⟨gss, hpl, hgroups⟩ := plan_ok_groups h
    rw [hgroups]
    exact planLoop_perm _ _ _ _ hpl

/-- Witness for C3: the two-task mutual dependency `{t1→t2, t2→t1}` is a
concrete cycle witness, the theorem makes planning fail on it, and a
successful single-task plan keeps its task. -/
theorem plan_circular_dependency_detection_witness :
    Parallel.CycleWitness
      [⟨"t1", "Task 1", fun _ => .ok "r1", ["t2"], .pending, none, none⟩,
       ⟨"t2", "Task 2", fun _ => .ok "r2", ["t1"], .pending, none, none⟩]
      ["t1", "t2"]
    ∧ (Parallel.ParallelExecutor.mk 10).plan
        [⟨"t1", "Task 1", fun _ => .ok "r1", ["t2"], .pending, none, none⟩,
         ⟨"t2", "Task 2", fun _ => .ok "r2", ["t1"], .pending, none, none⟩]
        = .error "Circular dependency detected"
    ∧ ∃ p, (Parallel.ParallelExecutor.mk 10).plan
          [⟨"solo", "Task", fun _ => .ok "r", [], .pending, none, none⟩] = .ok p
        ∧ ((p.groups.map (·.tasks)).flatten).Perm
            [⟨"solo", "Task", fun _ => .ok "r", [], .pending, none, none⟩] := by
  have hcw : Parallel.CycleWitness
      [⟨"t1", "Task 1", fun _ => .ok "r1", ["t2"], .pending, none, none⟩,
       ⟨"t2", "Task 2", fun _ => .ok "r2", ["t1"], .pending, none, none⟩]
      ["t1", "t2"] := by decide
  refine ⟨hcw, plan_circular_dependency_detection.1 _ _ _ hcw, ?_⟩
  cases hpl : (Parallel.ParallelExecutor.mk 10).plan
      [⟨"solo", "Task", fun _ => .ok "r", [], .pending, none, none⟩] with
  | error e =>
    have hloop : Parallel.planLoop
        ([(⟨"solo", "Task", fun _ => .ok "r", [], .pending, none, none⟩ :
            Parallel.Task)].length)
        [⟨"solo", "Task", fun _ => .ok "r", [], .pending, none, none⟩] [] =
        .ok [[⟨"solo", "Task", fun _ => .ok "r", [], .pending, none, none⟩]] := rfl
    unfold Parallel.ParallelExecutor.plan at hpl
    rw [hloop] at hpl
    simp [Except.map] at hpl
  | ok p =>
    exact ⟨p, rfl, plan_circular_dependency_detection.2.2 _ _ p hpl⟩

/-- C2: for every dependency-closed task list with pairwise-distinct ids and
no dependency cycle, `ParallelExecutor.plan` succeeds and its groups form a
partition of the input task list (union exactly the input, each task in
exactly one group), every task's dependencies lie in strictly earlier
groups, and no task of a group depends on a task of the same group. -/
theorem plan_grouping_correct :
    ∀ (ex : Parallel.ParallelExecutor) (tasks : List Parallel.Task),
      (tasks.map (·.id)).Nodup →
      (∀ t ∈ tasks, ∀ d ∈ t.depends_on, d ∈ tasks.map (·.id)) →
      ¬Parallel.HasCycle tasks →
      ∃ p, ex.plan tasks = .ok p
        ∧ ((p.groups.map (·.tasks)).flatten).Perm tasks
        ∧ (∀ (i : Nat) (hi : i < (p.groups.map (·.tasks)).length),
            ∀ t ∈ (p.groups.map (·.tasks)).get ⟨i, hi⟩, ∀ d ∈ t.depends_on,
              d ∈ ((p.groups.map (·.tasks)).take i).flatten.map (·.id))
        ∧ (∀ g ∈ p.groups.map (·.tasks), ∀ t ∈ g, ∀ d ∈ t.depends_on,
            ¬d ∈ g.map (·.id)) := by
  intro ex tasks hnd hcl hnc
  have hncS : ∀ S : List String, ¬Parallel.CycleWitness tasks S := by
    rintro S ⟨hS, hrem, hcyc⟩
    apply hnc
    refine ⟨(tasks.map (·.id)).filter (fun x => S.contains x),
      List.mem_sublists.mpr (List.filter_sublist _), ?_, ?_, ?_⟩
    · obtain ⟨s, hs⟩ := List.exists_mem_of_ne_nil S hS
      obtain ⟨t, ht, htid⟩ := hrem s hs
      have hmem : s ∈ (tasks.map (·.id)).filter (fun x => S.contains x) :=
        List.mem_filter.mpr ⟨List.mem_map.mpr ⟨t, ht, htid⟩, by simpa using hs⟩
      exact List.ne_nil_of_mem hmem
    · intro s hs
      have hsmap := (List.mem_filter.mp hs).1
      obtain ⟨t, ht, htid⟩ := List.mem_map.mp hsmap
      exact ⟨t, ht, htid⟩
    · intro t ht htS
      have htS' : t.id ∈ S := by simpa using (List.mem_filter.mp htS).2
      obtain ⟨d, hd, hdS⟩ := hcyc t ht htS'
      exact ⟨d, hd, List.mem_filter.mpr ⟨hcl t ht d hd, by simpa using hdS⟩⟩
  obtain ⟨gss, hpl⟩ := planLoop_complete tasks.length tasks [] le_rfl hnd
    (by intro t ht d hd; exact Or.inr (hcl t ht d hd)) hncS
  have hplan : ∃ p, ex.plan tasks = .ok p ∧ p.groups.map (·.tasks) = gss := by
    unfold Parallel.ParallelExecutor.plan
    rw [hpl]
    refine ⟨_, rfl, ?_⟩
    simp only [List.map_map]
    have hcomp : ((fun x => x.tasks) ∘ fun q : Nat × List Parallel.Task =>
        ({ group_id := q.1, tasks := q.2, dependencies := [] } : Parallel.ParallelGroup))
        = Prod.snd := by
      funext q
      rfl
    rw [hcomp]
    exact List.enum_map_snd gss
  obtain ⟨p, hpeq, hptasks⟩ := hplan
  have hperm : ((p.groups.map (·.tasks)).flatten).Perm tasks := by
    rw [hptasks]
    exact planLoop_perm _ _ _ _ hpl
  refine ⟨p, hpeq, hperm, ?_, ?_⟩
  · rw [hptasks]
    intro i hi t ht d hd
    rcases planLoop_deps_earlier _ _ _ _ hpl i hi t ht d hd with h1 | h2
    · exact absurd h1 (List.not_mem_nil d)
    · exact h2
  · rw [hptasks]
    intro g hg t ht d hd hdg
    obtain ⟨⟨i, hi⟩, hgi⟩ := List.mem_iff_get.mp hg
    have ht' : t ∈ gss.get ⟨i, hi⟩ := by rw [hgi]; exact ht
    have hdg' : d ∈ (gss.get ⟨i, hi⟩).map (·.id) := by rw [hgi]; exact hdg
    rcases planLoop_deps_earlier _ _ _ _ hpl i hi t ht' d hd with h1 | h2
    · exact absurd h1 (List.not_mem_nil d)
    · have hndf : (gss.flatten.map (·.id)).Nodup := by
        have hp := (planLoop_perm _ _ _ _ hpl).map (·.id)
        exact hp.nodup_iff.mpr hnd
      exact disjoint_take_group hndf i hi d h2 hdg'

/-- Witness for C2: the concrete dependent task list `{t1, t2, t3→(t1,t2)}`
has distinct ids, closed dependencies and no cycle, and the theorem yields a
successful plan with the partition and ordering properties. -/
theorem plan_grouping_correct_witness :
    ∃ p, (Parallel.ParallelExecutor.mk 10).plan
        [⟨"t1", "Task 1", fun _ => .ok "r1", [], .pending, none, none⟩,
         ⟨"t2", "Task 2", fun _ => .ok "r2", [], .pending, none, none⟩,
         ⟨"t3", "Depends on t1 and t2", fun _ => .ok "r3", ["t1", "t2"],
           .pending, none, none⟩] = .ok p
      ∧ ((p.groups.map (·.tasks)).flatten).Perm
          [⟨"t1", "Task 1", fun _ => .ok "r1", [], .pending, none, none⟩,
           ⟨"t2", "Task 2", fun _ => .ok "r2", [], .pending, none, none⟩,
           ⟨"t3", "Depends on t1 and t2", fun _ => .ok "r3", ["t1", "t2"],
             .pending, none, none⟩]
      ∧ (∀ (i : Nat) (hi : i < (p.groups.map (·.tasks)).length),
          ∀ t ∈ (p.groups.map (·.tasks)).get ⟨i, hi⟩, ∀ d ∈ t.depends_on,
            d ∈ ((p.groups.map (·.tasks)).take i).flatten.map (·.id))
      ∧ (∀ g ∈ p.groups.map (·.tasks), ∀ t ∈ g, ∀ d ∈ t.depends_on,
          ¬d ∈ g.map (·.id)) :=
  plan_grouping_correct (Parallel.ParallelExecutor.mk 10)
    [⟨"t1", "Task 1", fun _ => .ok "r1", [], .pending, none, none⟩,
     ⟨"t2", "Task 2", fun _ => .ok "r2", [], .pending, none, none⟩,
     ⟨"t3", "Depends on t1 and t2", fun _ => .ok "r3", ["t1", "t2"],
       .pending, none, none⟩]
    (by decide) (by decide) (by decide)

end SuperClaude
